import Mathlib

/-
  Verification of the yupsh/diff repository.

  The repository contains two parallel implementations of the diff engine:
  * `diff.go` (package diff): `Execute`, `normalizeCase`, `normalizeWhitespace`,
    `linesEqual`, `generateDiff`, `generateNormalDiff`, `generateUnifiedDiff`,
    `generateSideBySideDiff`.
  * `command.go` (package command): `Executor`, `areIdentical`,
    `outputNormalDiff`, `outputUnifiedDiff`, `outputContextDiff`.

  Modelling conventions:
  * A file's content is a `List String` of its lines; the file system is an
    oracle `readFile : String → List String` mapping an operand name to the
    lines obtained from a successful read (I/O failures are outside the
    claims verified here).
  * Output streams are lists of written lines (each Go `Fprintf` in the
    sources ends with a single newline, so one call = one line).
  * `context.Context` cancellation is modelled as the never-cancelled
    context: every `CheckContextCancellation` returns nil, so the guards in
    the Go sources are no-ops and are omitted.
  * Go `int` becomes `Int`; loop counters that start at 0 and only grow
    become `Nat`.
  * Go library functions used by the sources are modelled on ASCII content:
    `strings.ToLower` as `String.toLower`, `strings.Fields` as
    `stringFields`, `strings.TrimSpace` as `trimSpace`,
    `strings.Join(xs, " ")` as `String.intercalate " " xs`.
  * The indexed Go loops are translated to structural recursion over the
    not-yet-visited suffixes of the line lists, carrying the loop counters
    (and, where the loop body reads `len(lines)`, the original lengths) as
    explicit arguments; at step `i` of the Go loop the suffix argument is
    `lines.drop i`.
-/

/-- Whitespace predicate of Go `unicode.IsSpace` restricted to ASCII
(space, tab, newline, vertical tab, form feed, carriage return). -/
def goIsSpace (c : Char) : Bool :=
  c = ' ' || c = '\t' || c = '\n' || c = Char.ofNat 11 || c = Char.ofNat 12 || c = '\r'

/-- Helper for `stringFields`: splits a character list on runs of whitespace,
accumulating the current field in reverse. -/
def fieldsAux : List Char → List Char → List (List Char)
  | [], acc => if acc.isEmpty then [] else [acc.reverse]
  | c :: rest, acc =>
    if goIsSpace c then
      if acc.isEmpty then fieldsAux rest []
      else acc.reverse :: fieldsAux rest []
    else fieldsAux rest (c :: acc)

/-- Model of Go `strings.Fields`: the maximal whitespace-free substrings of
`s`, in order. -/
def stringFields (s : String) : List String :=
  (fieldsAux s.toList []).map fun cs => String.mk cs

/-- Model of Go `strings.TrimSpace`: removes leading and trailing
whitespace. -/
def trimSpace (s : String) : String :=
  String.mk (((s.toList.dropWhile goIsSpace).reverse.dropWhile goIsSpace).reverse)

/-- Model of Go `strings.ToLower` on ASCII content: lower-case every
character. -/
def strToLower (s : String) : String :=
  String.mk (s.toList.map Char.toLower)

/-- The configuration options of the diff command.  The two packages declare
structurally identical flag records (`opt.Flags` used by `diff.go` and
`flags` used by `command.go`); both are modelled by this one structure.
Field order: contextLines, unifiedContext, unified, contextDiff, brief,
ignoreCase, ignoreWhitespace, sideBySide, recursive. -/
structure DiffFlags where
  contextLines : Int
  unifiedContext : Int
  unified : Bool
  contextDiff : Bool
  brief : Bool
  ignoreCase : Bool
  ignoreWhitespace : Bool
  sideBySide : Bool
  recursive : Bool
deriving DecidableEq

/-- Result of one invocation: lines written to the primary output stream,
lines written to the diagnostic stream, and the returned error (`none` is
Go's nil error). -/
structure ExecResult where
  out : List String
  errOut : List String
  errorResult : Option String
deriving DecidableEq

namespace diff

/-- `diff.go` lines 131-143, `normalizeCase`: lower-case every line. -/
def normalizeCase (lines : List String) : List String :=
  lines.map strToLower

/-- `diff.go` lines 145-159, `normalizeWhitespace`: split each line into
fields and rejoin with single spaces. -/
def normalizeWhitespace (lines : List String) : List String :=
  lines.map fun line => String.intercalate " " (stringFields line)

/-- Loop of `diff.go` `linesEqual` (lines 165-175), on the unvisited
suffixes. -/
def linesEqualLoop : List String → List String → Bool
  | l1 :: r1, l2 :: r2 => if l1 ≠ l2 then false else linesEqualLoop r1 r2
  | _, _ => true

/-- `diff.go` lines 161-177, `linesEqual`: length check, then element-wise
comparison with early exit. -/
def linesEqual (lines1 lines2 : List String) : Bool :=
  if lines1.length ≠ lines2.length then false
  else linesEqualLoop lines1 lines2

/-- The normalization applied by `Execute` (diff.go lines 73-81) to each of
the two line sequences before comparison and rendering: case folding when
`ignoreCase`, then whitespace collapsing when `ignoreWhitespace`. -/
def normalizeForCompare (flags : DiffFlags) (lines : List String) : List String :=
  let lines := if flags.ignoreCase then normalizeCase lines else lines
  if flags.ignoreWhitespace then normalizeWhitespace lines else lines

/-- The phase of `diff.go` `generateNormalDiff` once lines1 is exhausted
(lines 203-207): every remaining line of lines2 yields an `a` command
(with the final, now fixed, counter `i`) and a `> ` line. -/
def appendPhase : List String → Nat → Nat → List String
  | [], _, _ => []
  | l2 :: rest2, i, j =>
    (toString i ++ "a" ++ toString (j + 1)) :: ("> " ++ l2)
      :: appendPhase rest2 i (j + 1)

/-- The phase of `diff.go` `generateNormalDiff` once lines2 is exhausted
(lines 208-212): every remaining line of lines1 yields a `d` command and a
`< ` line. -/
def deletePhase : List String → Nat → Nat → List String
  | [], _, _ => []
  | l1 :: rest1, i, j =>
    (toString (i + 1) ++ "d" ++ toString j) :: ("< " ++ l1)
      :: deletePhase rest1 (i + 1) j

/-- Loop of `diff.go` `generateNormalDiff` (lines 194-226) on the unvisited
suffixes of the two sequences; `i` and `j` count the lines already consumed
from lines1 and lines2.  Once one side is exhausted the Go loop stays in
the corresponding tail branch, modelled by the phase functions. -/
def generateNormalCore : List String → List String → Nat → Nat → List String
  | [], rest2, i, j => appendPhase rest2 i j
  | rest1, [], i, j => deletePhase rest1 i j
  | l1 :: rest1, l2 :: rest2, i, j =>
    if l1 = l2 then generateNormalCore rest1 rest2 (i + 1) (j + 1)
    else (toString (i + 1) ++ "c" ++ toString (j + 1)) :: ("< " ++ l1) :: "---"
      :: ("> " ++ l2) :: generateNormalCore rest1 rest2 (i + 1) (j + 1)

/-- `diff.go` lines 189-229, `generateNormalDiff` (ed-style diff). -/
def generateNormalDiff (lines1 lines2 : List String) : List String :=
  generateNormalCore lines1 lines2 0 0

/-- Loop of `diff.go` `generateUnifiedDiff` (lines 244-289) on the
unvisited suffixes; `i` and `j` count consumed lines.  A remaining tail on
either side is emitted as a single hunk by the inner `for` loops of the Go
code; a differing pair is emitted as its own one-line hunk; equal pairs
produce no output. -/
def unifiedCore : List String → List String → Nat → Nat → List String
  | [], [], _, _ => []
  | [], l2 :: rest2, i, j =>
    ("@@ -" ++ toString (i + 1) ++ ",0 +" ++ toString (j + 1) ++ ","
        ++ toString (l2 :: rest2).length ++ " @@")
      :: (l2 :: rest2).map (fun l => "+" ++ l)
  | l1 :: rest1, [], i, j =>
    ("@@ -" ++ toString (i + 1) ++ "," ++ toString (l1 :: rest1).length ++ " +"
        ++ toString (j + 1) ++ ",0 @@")
      :: (l1 :: rest1).map (fun l => "-" ++ l)
  | l1 :: rest1, l2 :: rest2, i, j =>
    if l1 = l2 then unifiedCore rest1 rest2 (i + 1) (j + 1)
    else ("@@ -" ++ toString (i + 1) ++ ",1 +" ++ toString (j + 1) ++ ",1 @@")
      :: ("-" ++ l1) :: ("+" ++ l2) :: unifiedCore rest1 rest2 (i + 1) (j + 1)

/-- `diff.go` lines 231-292, `generateUnifiedDiff`: the two header lines,
then the body.  The Go code computes `contextLines` (defaulting 0 to 3) but
never reads it afterwards; the dead binding is kept. -/
def generateUnifiedDiff (flags : DiffFlags) (lines1 lines2 : List String)
    (file1Name file2Name : String) : List String :=
  let _contextLines : Int :=
    if flags.unifiedContext = 0 then 3 else flags.unifiedContext
  ("--- " ++ file1Name) :: ("+++ " ++ file2Name) :: unifiedCore lines1 lines2 0 0

/-- Go `fmt` `%-40s`: left-justify to 40 runes with spaces (no truncation). -/
def padRight40 (s : String) : String :=
  s ++ String.mk (List.replicate (40 - s.length) ' ')

/-- `diff.go` lines 294-326, `generateSideBySideDiff`. -/
def generateSideBySideDiff (lines1 lines2 : List String) : List String :=
  (List.range (max lines1.length lines2.length)).map fun i =>
    let line1 := lines1.getD i ""
    let line2 := lines2.getD i ""
    if line1 = line2 then padRight40 line1 ++ "   " ++ padRight40 line2
    else padRight40 line1 ++ " | " ++ padRight40 line2

/-- `diff.go` lines 179-187, `generateDiff`: renderer selection.  Unified is
chosen when the Unified flag is set or UnifiedContext is positive. -/
def generateDiff (flags : DiffFlags) (lines1 lines2 : List String)
    (file1Name file2Name : String) : List String :=
  if flags.unified || flags.unifiedContext > 0 then
    generateUnifiedDiff flags lines1 lines2 file1Name file2Name
  else if flags.sideBySide then
    generateSideBySideDiff lines1 lines2
  else
    generateNormalDiff lines1 lines2

/-- `diff.go` lines 24-34, the `Diff` constructor's default-setting logic
(the `opt.Args` argument parsing that produces the initial flags is outside
the engine): UnifiedContext defaults to 3 when Unified is set and no width
was given, and likewise ContextLines for ContextDiff. -/
def Diff (flags : DiffFlags) : DiffFlags :=
  ⟨if flags.contextLines = 0 && flags.contextDiff then 3 else flags.contextLines,
   if flags.unifiedContext = 0 && flags.unified then 3 else flags.unifiedContext,
   flags.unified, flags.contextDiff, flags.brief, flags.ignoreCase,
   flags.ignoreWhitespace, flags.sideBySide, flags.recursive⟩

/-- `diff.go` lines 36-101, `Execute`: operand-count check (exactly two),
read both operands, normalize, equality short-circuit, brief mode, then
renderer dispatch.  `readFile` is the file-system oracle. -/
def Execute (flags : DiffFlags) (positional : List String)
    (readFile : String → List String) : ExecResult :=
  match positional with
  | [file1Name, file2Name] =>
    let lines1 := normalizeForCompare flags (readFile file1Name)
    let lines2 := normalizeForCompare flags (readFile file2Name)
    if linesEqual lines1 lines2 then ⟨[], [], none⟩
    else if flags.brief then
      ⟨["Files " ++ file1Name ++ " and " ++ file2Name ++ " differ"], [], none⟩
    else ⟨generateDiff flags lines1 lines2 file1Name file2Name, [], none⟩
  | _ => ⟨[], ["diff: need exactly 2 files"], some "need exactly 2 files"⟩

end diff

namespace command

/-- Loop of `command.go` `areIdentical` (lines 103-119) on the unvisited
suffixes: each pair is trimmed when `ignoreWhitespace` and lower-cased when
`ignoreCase` (in that order) before comparison. -/
def areIdenticalLoop : List String → List String → Bool → Bool → Bool
  | l1 :: r1, l2 :: r2, ignoreCase, ignoreWhitespace =>
    let a := if ignoreWhitespace then trimSpace l1 else l1
    let b := if ignoreWhitespace then trimSpace l2 else l2
    let a := if ignoreCase then strToLower a else a
    let b := if ignoreCase then strToLower b else b
    if a ≠ b then false else areIdenticalLoop r1 r2 ignoreCase ignoreWhitespace
  | _, _, _, _ => true

/-- `command.go` lines 98-122, `areIdentical`: length check, then the
per-pair loop with the two ignore flags. -/
def areIdentical (lines1 lines2 : List String)
    (ignoreCase ignoreWhitespace : Bool) : Bool :=
  if lines1.length ≠ lines2.length then false
  else areIdenticalLoop lines1 lines2 ignoreCase ignoreWhitespace

/-- The phase of `command.go` `outputNormalDiff` once the index has passed
the end of lines1 (lines 133-135). -/
def outputNormalAppendPhase (len1 : Nat) : List String → Nat → List String
  | [], _ => []
  | l2 :: rest2, i =>
    (toString len1 ++ "a" ++ toString (i + 1)) :: ("> " ++ l2)
      :: outputNormalAppendPhase len1 rest2 (i + 1)

/-- The phase of `command.go` `outputNormalDiff` once lines2 is exhausted
(lines 136-138). -/
def outputNormalDeletePhase (len2 : Nat) : List String → Nat → List String
  | [], _ => []
  | l1 :: rest1, i =>
    (toString (i + 1) ++ "d" ++ toString len2) :: ("< " ++ l1)
      :: outputNormalDeletePhase len2 rest1 (i + 1)

/-- Loop of `command.go` `outputNormalDiff` (lines 132-145) on the
unvisited suffixes; the loop body reads `len(lines1)` and `len(lines2)` of
the full sequences, so those are carried as `len1`, `len2`; `i` is the loop
counter (at step `i` the suffix arguments are `lines1.drop i` and
`lines2.drop i`). -/
def outputNormalCore (len1 len2 : Nat) :
    List String → List String → Nat → List String
  | [], rest2, i => outputNormalAppendPhase len1 rest2 i
  | rest1, [], i => outputNormalDeletePhase len2 rest1 i
  | l1 :: rest1, l2 :: rest2, i =>
    (if l1 ≠ l2 then
      [toString (i + 1) ++ "c" ++ toString (i + 1), "< " ++ l1, "---", "> " ++ l2]
    else [])
      ++ outputNormalCore len1 len2 rest1 rest2 (i + 1)

/-- `command.go` lines 125-146, `outputNormalDiff`: positional walk by one
shared index. -/
def outputNormalDiff (lines1 lines2 : List String) : List String :=
  outputNormalCore lines1.length lines2.length lines1 lines2 0

/-- Loop of `command.go` `outputUnifiedDiff` (lines 154-165): every index
up to the longer length yields exactly one `+`, one `-`, a `-`/`+` pair, or
one space-prefixed line. -/
def outputUnifiedCore : List String → List String → List String
  | [], rest2 => rest2.map fun l => "+" ++ l
  | rest1, [] => rest1.map fun l => "-" ++ l
  | l1 :: rest1, l2 :: rest2 =>
    (if l1 ≠ l2 then ["-" ++ l1, "+" ++ l2] else [" " ++ l1])
      ++ outputUnifiedCore rest1 rest2

/-- `command.go` lines 149-166, `outputUnifiedDiff`: the `---`/`+++` header
then the positional body; the `context` parameter is accepted but never
read. -/
def outputUnifiedDiff (file1 file2 : String) (lines1 lines2 : List String)
    (context : Int) : List String :=
  let _ : Int := context
  ("--- " ++ file1) :: ("+++ " ++ file2) :: outputUnifiedCore lines1 lines2

/-- Loop of `command.go` `outputContextDiff` (lines 174-185). -/
def outputContextCore : List String → List String → List String
  | [], rest2 => rest2.map fun l => "+ " ++ l
  | rest1, [] => rest1.map fun l => "- " ++ l
  | l1 :: rest1, l2 :: rest2 =>
    (if l1 ≠ l2 then ["! " ++ l1, "! " ++ l2] else ["  " ++ l1])
      ++ outputContextCore rest1 rest2

/-- `command.go` lines 169-186, `outputContextDiff`: `***`/`---` headers
then the positional body; `context` is accepted but never read. -/
def outputContextDiff (file1 file2 : String) (lines1 lines2 : List String)
    (context : Int) : List String :=
  let _ : Int := context
  ("*** " ++ file1) :: ("--- " ++ file2) :: outputContextCore lines1 lines2

/-- `command.go` lines 16-25, the `Diff` constructor's default-setting
logic (identical to the one in `diff.go`). -/
def Diff (flags : DiffFlags) : DiffFlags :=
  ⟨if flags.contextLines = 0 && flags.contextDiff then 3 else flags.contextLines,
   if flags.unifiedContext = 0 && flags.unified then 3 else flags.unifiedContext,
   flags.unified, flags.contextDiff, flags.brief, flags.ignoreCase,
   flags.ignoreWhitespace, flags.sideBySide, flags.recursive⟩

/-- `command.go` lines 27-74, `Executor`: fewer than two operands is a
usage error; otherwise the first two operands are read, checked with
`areIdentical`, and rendered by the format selected as
unified > contextDiff > normal (brief short-circuits first). -/
def Executor (flags : DiffFlags) (positional : List String)
    (readFile : String → List String) : ExecResult :=
  match positional with
  | file1Path :: file2Path :: _ =>
    let lines1 := readFile file1Path
    let lines2 := readFile file2Path
    if areIdentical lines1 lines2 flags.ignoreCase flags.ignoreWhitespace then
      ⟨[], [], none⟩
    else if flags.brief then
      ⟨["Files " ++ file1Path ++ " and " ++ file2Path ++ " differ"], [], none⟩
    else if flags.unified then
      ⟨outputUnifiedDiff file1Path file2Path lines1 lines2 flags.unifiedContext,
        [], none⟩
    else if flags.contextDiff then
      ⟨outputContextDiff file1Path file2Path lines1 lines2 flags.contextLines,
        [], none⟩
    else ⟨outputNormalDiff lines1 lines2, [], none⟩
  | short =>
    ⟨[], ["diff: missing operand after \x27" ++ String.intercalate " " short ++ "\x27"],
      some "diff requires two files to compare"⟩

end command

/-- Specification-side description of a pure tail insertion in ed-style
output: starting after `n` matched lines of A and `j` already-consumed
lines of B, each inserted line `s` is announced by an append command
`<n>a<j+1>` followed by `> s`.  Used to state that a diff of `A` against
`A ++ S` is reported as append commands only. -/
def pureAppendScript : Nat → Nat → List String → List String
  | _, _, [] => []
  | n, j, s :: rest =>
    (toString n ++ "a" ++ toString (j + 1)) :: ("> " ++ s)
      :: pureAppendScript n (j + 1) rest

/-- The per-line comparison key of `command.go` `areIdentical` (lines
104-114): trim when `ignoreWhitespace`, then lower-case when
`ignoreCase`. -/
def identKey (ignoreCase ignoreWhitespace : Bool) (s : String) : String :=
  let a := if ignoreWhitespace then trimSpace s else s
  if ignoreCase then strToLower a else a

/-! ## Auxiliary lemmas -/

lemma linesEqualLoop_self (l : List String) : diff.linesEqualLoop l l = true := by
  induction l with
  | nil => rfl
  | cons a r ih => simp [diff.linesEqualLoop, ih]

lemma linesEqual_self (l : List String) : diff.linesEqual l l = true := by
  simp [diff.linesEqual, linesEqualLoop_self]

lemma linesEqualLoop_iff (l1 l2 : List String) (hlen : l1.length = l2.length) :
    diff.linesEqualLoop l1 l2 = true ↔ l1 = l2 := by
  induction l1 generalizing l2 with
  | nil =>
    cases l2 with
    | nil => simp [diff.linesEqualLoop]
    | cons b r2 => simp at hlen
  | cons a r1 ih =>
    cases l2 with
    | nil => simp at hlen
    | cons b r2 =>
      simp only [List.length_cons, Nat.succ.injEq] at hlen
      by_cases hab : a = b
      · subst hab
        simp [diff.linesEqualLoop, ih r2 hlen]
      · simp [diff.linesEqualLoop, hab]

lemma linesEqual_iff (l1 l2 : List String) :
    diff.linesEqual l1 l2 = true ↔ l1 = l2 := by
  by_cases hlen : l1.length = l2.length
  · simp only [diff.linesEqual, hlen, ne_eq, not_true_eq_false, if_false]
    exact linesEqualLoop_iff l1 l2 hlen
  · simp only [diff.linesEqual, ne_eq, hlen, not_false_eq_true, if_true]
    constructor
    · intro h; simp at h
    · intro h; exact absurd (congrArg List.length h) hlen

lemma list_eq_iff_getD (l1 l2 : List String) :
    l1 = l2 ↔
      (l1.length = l2.length ∧ ∀ i, i < l1.length → l1.getD i "" = l2.getD i "") := by
  constructor
  · intro h; subst h; exact ⟨rfl, fun _ _ => rfl⟩
  · intro ⟨hlen, hget⟩
    induction l1 generalizing l2 with
    | nil =>
      cases l2 with
      | nil => rfl
      | cons b r2 => simp at hlen
    | cons a r1 ih =>
      cases l2 with
      | nil => simp at hlen
      | cons b r2 =>
        simp only [List.length_cons, Nat.succ.injEq] at hlen
        have hhead : a = b := by
          have := hget 0 (by simp)
          simpa using this
        have htail : r1 = r2 := by
          apply ih r2 hlen
          intro i hi
          have := hget (i + 1) (by simpa using Nat.succ_lt_succ hi)
          simpa using this
        rw [hhead, htail]

lemma areIdenticalLoop_self (l : List String) (ic iw : Bool) :
    command.areIdenticalLoop l l ic iw = true := by
  induction l with
  | nil => rfl
  | cons a r ih => simp [command.areIdenticalLoop, ih]

lemma areIdentical_self (l : List String) (ic iw : Bool) :
    command.areIdentical l l ic iw = true := by
  simp [command.areIdentical, areIdenticalLoop_self]

lemma areIdenticalLoop_of_key_eq (ic iw : Bool) (l1 l2 : List String)
    (h : l1.map (identKey ic iw) = l2.map (identKey ic iw)) :
    command.areIdenticalLoop l1 l2 ic iw = true := by
  induction l1 generalizing l2 with
  | nil =>
    cases l2 with
    | nil => rfl
    | cons b r2 => simp at h
  | cons a r1 ih =>
    cases l2 with
    | nil => simp at h
    | cons b r2 =>
      simp only [List.map_cons, List.cons.injEq] at h
      have hk : identKey ic iw a = identKey ic iw b := h.1
      simp only [command.areIdenticalLoop]
      rw [show ((if ic then strToLower (if iw then trimSpace a else a)
            else if iw then trimSpace a else a) : String)
          = identKey ic iw a from rfl,
        show ((if ic then strToLower (if iw then trimSpace b else b)
            else if iw then trimSpace b else b) : String)
          = identKey ic iw b from rfl, hk]
      simp [ih r2 h.2]

lemma areIdentical_of_key_eq (ic iw : Bool) (l1 l2 : List String)
    (h : l1.map (identKey ic iw) = l2.map (identKey ic iw)) :
    command.areIdentical l1 l2 ic iw = true := by
  have hlen : l1.length = l2.length := by
    have := congrArg List.length h
    simpa using this
  simp [command.areIdentical, hlen, areIdenticalLoop_of_key_eq ic iw l1 l2 h]

lemma areIdenticalLoop_plain_iff (l1 l2 : List String)
    (hlen : l1.length = l2.length) :
    command.areIdenticalLoop l1 l2 false false = true ↔ l1 = l2 := by
  induction l1 generalizing l2 with
  | nil =>
    cases l2 with
    | nil => simp [command.areIdenticalLoop]
    | cons b r2 => simp at hlen
  | cons a r1 ih =>
    cases l2 with
    | nil => simp at hlen
    | cons b r2 =>
      simp only [List.length_cons, Nat.succ.injEq] at hlen
      by_cases hab : a = b
      · subst hab
        simp [command.areIdenticalLoop, ih r2 hlen]
      · simp [command.areIdenticalLoop, hab]

lemma areIdentical_plain_iff (l1 l2 : List String) :
    command.areIdentical l1 l2 false false = true ↔ l1 = l2 := by
  by_cases hlen : l1.length = l2.length
  · simp only [command.areIdentical, hlen, ne_eq, not_true_eq_false, if_false]
    exact areIdenticalLoop_plain_iff l1 l2 hlen
  · simp only [command.areIdentical, ne_eq, hlen, not_false_eq_true, if_true]
    constructor
    · intro h; simp at h
    · intro h; exact absurd (congrArg List.length h) hlen

lemma appendPhase_eq_pureAppendScript (S : List String) (n j : Nat) :
    diff.appendPhase S n j = pureAppendScript n j S := by
  induction S generalizing j with
  | nil => rfl
  | cons s rest ih => simp [diff.appendPhase, pureAppendScript, ih]

lemma outputNormalAppendPhase_eq_pureAppendScript (S : List String) (n i : Nat) :
    command.outputNormalAppendPhase n S i = pureAppendScript n i S := by
  induction S generalizing i with
  | nil => rfl
  | cons s rest ih =>
    simp [command.outputNormalAppendPhase, pureAppendScript, ih]

lemma generateNormalCore_append (A S : List String) (i j : Nat) :
    diff.generateNormalCore A (A ++ S) i j =
      diff.appendPhase S (i + A.length) (j + A.length) := by
  induction A generalizing i j S with
  | nil =>
    cases S with
    | nil => simp [diff.generateNormalCore, diff.appendPhase]
    | cons s rest => simp [diff.generateNormalCore]
  | cons a A' ih =>
    have : diff.generateNormalCore (a :: A') ((a :: A') ++ S) i j =
        diff.generateNormalCore A' (A' ++ S) (i + 1) (j + 1) := by
      simp [diff.generateNormalCore]
    rw [this, ih]
    congr 1 <;> simp <;> omega

lemma outputNormalCore_append (A S : List String) (len1 len2 i : Nat) :
    command.outputNormalCore len1 len2 A (A ++ S) i =
      command.outputNormalAppendPhase len1 S (i + A.length) := by
  induction A generalizing i with
  | nil => simp [command.outputNormalCore]
  | cons a A' ih =>
    have : command.outputNormalCore len1 len2 (a :: A') ((a :: A') ++ S) i =
        command.outputNormalCore len1 len2 A' (A' ++ S) (i + 1) := by
      simp [command.outputNormalCore]
    rw [this, ih]
    congr 1
    simp; omega

lemma unifiedCore_line_forms (l1 l2 : List String) (i j : Nat) (l : String)
    (hmem : l ∈ diff.unifiedCore l1 l2 i j) :
    (∃ s, l = "@@ -" ++ s) ∨ (∃ s, l = "-" ++ s) ∨ (∃ s, l = "+" ++ s) := by
  induction l1 generalizing l2 i j with
  | nil =>
    cases l2 with
    | nil => simp [diff.unifiedCore] at hmem
    | cons b r2 =>
      simp only [diff.unifiedCore, List.mem_cons] at hmem
      rcases hmem with hhd | htl
      · exact Or.inl ⟨_, hhd⟩
      · rcases List.mem_map.mp htl with ⟨a, _, ha⟩
        exact Or.inr (Or.inr ⟨a, ha.symm⟩)
  | cons a r1 ih =>
    cases l2 with
    | nil =>
      simp only [diff.unifiedCore, List.mem_cons] at hmem
      rcases hmem with hhd | htl
      · exact Or.inl ⟨_, hhd⟩
      · rcases List.mem_map.mp htl with ⟨x, _, hx⟩
        exact Or.inr (Or.inl ⟨x, hx.symm⟩)
    | cons b r2 =>
      by_cases hab : a = b
      · rw [show diff.unifiedCore (a :: r1) (b :: r2) i j =
            diff.unifiedCore r1 r2 (i + 1) (j + 1) by
          simp [diff.unifiedCore, hab]] at hmem
        exact ih r2 (i + 1) (j + 1) hmem
      · rw [show diff.unifiedCore (a :: r1) (b :: r2) i j =
            ("@@ -" ++ toString (i + 1) ++ ",1 +" ++ toString (j + 1) ++ ",1 @@")
              :: ("-" ++ a) :: ("+" ++ b) :: diff.unifiedCore r1 r2 (i + 1) (j + 1) by
          simp [diff.unifiedCore, hab]] at hmem
        simp only [List.mem_cons] at hmem
        rcases hmem with h1 | h2 | h3 | h4
        · exact Or.inl ⟨_, h1⟩
        · exact Or.inr (Or.inl ⟨a, h2⟩)
        · exact Or.inr (Or.inr ⟨b, h3⟩)
        · exact ih r2 (i + 1) (j + 1) h4

lemma outputUnifiedCore_line_forms (l1 l2 : List String) (l : String)
    (hmem : l ∈ command.outputUnifiedCore l1 l2) :
    (∃ s, l = " " ++ s) ∨ (∃ s, l = "-" ++ s) ∨ (∃ s, l = "+" ++ s) := by
  induction l1 generalizing l2 with
  | nil =>
    simp only [command.outputUnifiedCore] at hmem
    rcases List.mem_map.mp hmem with ⟨a, _, ha⟩
    exact Or.inr (Or.inr ⟨a, ha.symm⟩)
  | cons a r1 ih =>
    cases l2 with
    | nil =>
      simp only [command.outputUnifiedCore] at hmem
      rcases List.mem_map.mp hmem with ⟨x, _, hx⟩
      exact Or.inr (Or.inl ⟨x, hx.symm⟩)
    | cons b r2 =>
      by_cases hab : a = b
      · rw [show command.outputUnifiedCore (a :: r1) (b :: r2) =
            (" " ++ a) :: command.outputUnifiedCore r1 r2 by
          simp [command.outputUnifiedCore, hab]] at hmem
        rcases List.mem_cons.mp hmem with h1 | h2
        · exact Or.inl ⟨a, h1⟩
        · exact ih r2 h2
      · rw [show command.outputUnifiedCore (a :: r1) (b :: r2) =
            ("-" ++ a) :: ("+" ++ b) :: command.outputUnifiedCore r1 r2 by
          simp [command.outputUnifiedCore, hab]] at hmem
        simp only [List.mem_cons] at hmem
        rcases hmem with h1 | h2 | h3
        · exact Or.inr (Or.inl ⟨a, h1⟩)
        · exact Or.inr (Or.inr ⟨b, h2⟩)
        · exact ih r2 h3

lemma normalizeWhitespace_congr (l1 l2 : List String)
    (h : l1.map stringFields = l2.map stringFields) :
    diff.normalizeWhitespace l1 = diff.normalizeWhitespace l2 := by
  have e : ∀ l : List String, diff.normalizeWhitespace l =
      (l.map stringFields).map (String.intercalate " ") := by
    intro l
    simp [diff.normalizeWhitespace, List.map_map, Function.comp]
  rw [e, e, h]

/-! ## Claims -/

/-- C1 counterexample: with the ignoreCase flag set, `command.go`'s
`areIdentical` returns true for the sequences `["A"]` and `["a"]` although
no upstream normalization was applied and the lines are not equal — the
check normalizes internally, contradicting the claim. -/
theorem C1_counterexample :
    command.areIdentical ["A"] ["a"] true false = true ∧
      (["A"] : List String) ≠ ["a"] :=
  ⟨by decide, by decide⟩

/-- C1 (amended): `diff.go`'s `linesEqual` returns true iff the lengths are
equal and every corresponding pair of lines is equal, performing no
normalization; `command.go`'s `areIdentical` satisfies the same property
exactly when both ignore flags are false (when a flag is set it normalizes
the lines itself before comparing). -/
theorem C1_equality_check :
    (∀ l1 l2 : List String,
      diff.linesEqual l1 l2 = true ↔
        (l1.length = l2.length ∧ ∀ i, i < l1.length → l1.getD i "" = l2.getD i "")) ∧
    (∀ l1 l2 : List String,
      command.areIdentical l1 l2 false false = true ↔
        (l1.length = l2.length ∧ ∀ i, i < l1.length → l1.getD i "" = l2.getD i "")) := by
  refine ⟨fun l1 l2 => ?_, fun l1 l2 => ?_⟩
  · rw [linesEqual_iff, list_eq_iff_getD]
  · rw [areIdentical_plain_iff, list_eq_iff_getD]

/-- C1 witness: the equivalences applied at concrete equal sequences. -/
theorem C1_witness :
    diff.linesEqual ["a", "b"] ["a", "b"] = true ∧
    command.areIdentical ["a", "b"] ["a", "b"] false false = true := by
  constructor
  · exact (C1_equality_check.1 ["a", "b"] ["a", "b"]).mpr (by decide)
  · exact (C1_equality_check.2 ["a", "b"] ["a", "b"]).mpr (by decide)

/-- C2: comparing any content against itself (both operands reading the
same lines) produces no output on the primary stream and a nil error, in
both implementations. -/
theorem C2_identity :
    ∀ (flags : DiffFlags) (f1 f2 : String) (readFile : String → List String),
      readFile f1 = readFile f2 →
      diff.Execute flags [f1, f2] readFile = ⟨[], [], none⟩ ∧
      command.Executor flags [f1, f2] readFile = ⟨[], [], none⟩ := by
  intro flags f1 f2 readFile h
  constructor
  · simp [diff.Execute, h, linesEqual_self]
  · simp [command.Executor, h, areIdentical_self]

/-- C2 witness: a concrete self-comparison. -/
theorem C2_witness :
    diff.Execute ⟨0, 0, false, false, false, false, false, false, false⟩ ["f", "f"]
        (fun _ => ["x"]) = ⟨[], [], none⟩ ∧
    command.Executor ⟨0, 0, false, false, false, false, false, false, false⟩ ["f", "f"]
        (fun _ => ["x"]) = ⟨[], [], none⟩ :=
  C2_identity ⟨0, 0, false, false, false, false, false, false, false⟩ "f" "f"
    (fun _ => ["x"]) rfl

/-- C3: diffing `A` against `A ++ S` in normal mode yields a pure tail
insertion — only append commands `<n>a<m>` and `> ` lines, no change or
delete block — in both implementations; in particular
`["a","b"]` vs `["a","b","c"]` reports only the insertion of `c`. -/
theorem C3_tail_insertion :
    (∀ A S : List String, S ≠ [] →
      diff.generateNormalDiff A (A ++ S) = pureAppendScript A.length A.length S ∧
      command.outputNormalDiff A (A ++ S) = pureAppendScript A.length A.length S) ∧
    diff.generateNormalDiff ["a", "b"] ["a", "b", "c"] = ["2a3", "> c"] ∧
    command.outputNormalDiff ["a", "b"] ["a", "b", "c"] = ["2a3", "> c"] := by
  refine ⟨fun A S _ => ⟨?_, ?_⟩, by decide, by decide⟩
  · simp only [diff.generateNormalDiff, generateNormalCore_append,
      appendPhase_eq_pureAppendScript, Nat.zero_add]
  · simp only [command.outputNormalDiff, outputNormalCore_append,
      outputNormalAppendPhase_eq_pureAppendScript, Nat.zero_add]

/-- C3 witness: the tail-insertion property at a concrete input. -/
theorem C3_witness :
    diff.generateNormalDiff ["a"] (["a"] ++ ["c"]) = pureAppendScript 1 1 ["c"] ∧
    command.outputNormalDiff ["a"] (["a"] ++ ["c"]) = pureAppendScript 1 1 ["c"] := by
  have h := C3_tail_insertion.1 ["a"] ["c"] (by decide)
  simpa using h

/-- C4 counterexample: with ignoreWhitespace set, `command.go`'s
`areIdentical` reports `"a  b"` and `"a b"` as different although they
differ only in an interior whitespace run-length (their whitespace-split
fields coincide) — it only trims leading/trailing whitespace. -/
theorem C4_counterexample :
    command.areIdentical ["a  b"] ["a b"] false true = false ∧
    stringFields "a  b" = stringFields "a b" :=
  ⟨by decide, by decide⟩

/-- C4 (amended): under ignoreWhitespace the `diff.go` pipeline collapses
interior whitespace runs and trims ends, so sequences whose lines have
identical whitespace-separated fields compare equal (also after case
folding when ignoreCase is set too); `command.go`'s `areIdentical` only
trims leading/trailing whitespace, so only sequences with identical
trimmed lines (lower-cased trimmed lines when ignoreCase is also set)
compare equal, and interior run-length differences remain unequal. -/
theorem C4_whitespace_equivalence :
    (∀ l1 l2 : List String, l1.map stringFields = l2.map stringFields →
      diff.linesEqual (diff.normalizeWhitespace l1) (diff.normalizeWhitespace l2) = true) ∧
    (∀ l1 l2 : List String,
      (diff.normalizeCase l1).map stringFields = (diff.normalizeCase l2).map stringFields →
      diff.linesEqual (diff.normalizeWhitespace (diff.normalizeCase l1))
        (diff.normalizeWhitespace (diff.normalizeCase l2)) = true) ∧
    (∀ l1 l2 : List String, l1.map trimSpace = l2.map trimSpace →
      command.areIdentical l1 l2 false true = true) ∧
    (∀ l1 l2 : List String,
      l1.map (fun s => strToLower (trimSpace s)) =
        l2.map (fun s => strToLower (trimSpace s)) →
      command.areIdentical l1 l2 true true = true) := by
  refine ⟨fun l1 l2 h => ?_, fun l1 l2 h => ?_, fun l1 l2 h => ?_, fun l1 l2 h => ?_⟩
  · rw [normalizeWhitespace_congr l1 l2 h]; exact linesEqual_self _
  · rw [normalizeWhitespace_congr _ _ h]; exact linesEqual_self _
  · apply areIdentical_of_key_eq
    have e : identKey false true = fun s => trimSpace s := by
      funext s; simp [identKey]
    rw [e]; exact h
  · apply areIdentical_of_key_eq
    have e : identKey true true = fun s => strToLower (trimSpace s) := by
      funext s; simp [identKey]
    rw [e]; exact h

/-- C4 witness: whitespace-insensitive equality at concrete inputs. -/
theorem C4_witness :
    diff.linesEqual (diff.normalizeWhitespace ["a  b"])
      (diff.normalizeWhitespace [" a b "]) = true ∧
    command.areIdentical ["  x"] ["x  "] false true = true := by
  constructor
  · exact C4_whitespace_equivalence.1 ["a  b"] [" a b "] (by decide)
  · exact C4_whitespace_equivalence.2.2.1 ["  x"] ["x  "] (by decide)

/-- C5: when brief is set and the (normalized) line sequences differ, both
implementations write exactly the single line `Files <A> and <B> differ`
naming the original operands, with no diagnostic output and a nil error. -/
theorem C5_brief_mode :
    ∀ (flags : DiffFlags) (f1 f2 : String) (readFile : String → List String),
      flags.brief = true →
      (diff.linesEqual (diff.normalizeForCompare flags (readFile f1))
          (diff.normalizeForCompare flags (readFile f2)) = false →
        diff.Execute flags [f1, f2] readFile =
          ⟨["Files " ++ f1 ++ " and " ++ f2 ++ " differ"], [], none⟩) ∧
      (command.areIdentical (readFile f1) (readFile f2)
          flags.ignoreCase flags.ignoreWhitespace = false →
        command.Executor flags [f1, f2] readFile =
          ⟨["Files " ++ f1 ++ " and " ++ f2 ++ " differ"], [], none⟩) := by
  intro flags f1 f2 readFile hb
  constructor
  · intro hne; simp [diff.Execute, hne, hb]
  · intro hne; simp [command.Executor, hne, hb]

/-- C5 witness: brief output at a concrete differing pair. -/
theorem C5_witness :
    diff.Execute ⟨0, 0, false, false, true, false, false, false, false⟩ ["A", "B"]
        (fun s => if s = "A" then ["x"] else ["y"]) =
      ⟨["Files " ++ "A" ++ " and " ++ "B" ++ " differ"], [], none⟩ ∧
    command.Executor ⟨0, 0, false, false, true, false, false, false, false⟩ ["A", "B"]
        (fun s => if s = "A" then ["x"] else ["y"]) =
      ⟨["Files " ++ "A" ++ " and " ++ "B" ++ " differ"], [], none⟩ := by
  have h := C5_brief_mode ⟨0, 0, false, false, true, false, false, false, false⟩ "A" "B"
    (fun s => if s = "A" then ["x"] else ["y"]) rfl
  exact ⟨h.1 (by decide), h.2 (by decide)⟩

/-- C6 counterexample: with zero operands, neither implementation writes
the message `diff: missing operand`: `diff.go` writes
`diff: need exactly 2 files` and `command.go` writes
`diff: missing operand after ''`. -/
theorem C6_counterexample :
    (diff.Execute ⟨0, 0, false, false, false, false, false, false, false⟩ []
        (fun _ => [])).errOut = ["diff: need exactly 2 files"] ∧
    (command.Executor ⟨0, 0, false, false, false, false, false, false, false⟩ []
        (fun _ => [])).errOut = ["diff: missing operand after \x27\x27"] ∧
    ("diff: need exactly 2 files" ≠ "diff: missing operand") ∧
    ("diff: missing operand after \x27\x27" ≠ "diff: missing operand") :=
  ⟨by decide, by decide, by decide, by decide⟩

/-- C6 (amended): with fewer than two operands both implementations return
a non-nil error; `diff.go` writes `diff: need exactly 2 files` and
`command.go` writes `diff: missing operand after '<operands>'` on the
diagnostic stream (the exact text `diff: missing operand` is written by
neither). -/
theorem C6_operand_error :
    ∀ (flags : DiffFlags) (positional : List String)
      (readFile : String → List String),
      positional.length < 2 →
      ((diff.Execute flags positional readFile).errorResult ≠ none ∧
        (diff.Execute flags positional readFile).errOut =
          ["diff: need exactly 2 files"]) ∧
      ((command.Executor flags positional readFile).errorResult ≠ none ∧
        (command.Executor flags positional readFile).errOut =
          ["diff: missing operand after \x27" ++ String.intercalate " " positional
            ++ "\x27"]) := by
  intro flags positional readFile hlen
  rcases positional with _ | ⟨a, _ | ⟨b, rest⟩⟩
  · exact ⟨⟨by simp [diff.Execute], by simp [diff.Execute]⟩,
      ⟨by simp [command.Executor], by simp [command.Executor]⟩⟩
  · exact ⟨⟨by simp [diff.Execute], by simp [diff.Execute]⟩,
      ⟨by simp [command.Executor], by simp [command.Executor]⟩⟩
  · simp at hlen; omega

/-- C6 witness: the amended operand-error behavior at zero operands. -/
theorem C6_witness :
    ((diff.Execute ⟨0, 0, false, false, false, false, false, false, false⟩ []
        (fun _ => [])).errorResult ≠ none ∧
      (diff.Execute ⟨0, 0, false, false, false, false, false, false, false⟩ []
        (fun _ => [])).errOut = ["diff: need exactly 2 files"]) ∧
    ((command.Executor ⟨0, 0, false, false, false, false, false, false, false⟩ []
        (fun _ => [])).errorResult ≠ none ∧
      (command.Executor ⟨0, 0, false, false, false, false, false, false, false⟩ []
        (fun _ => [])).errOut =
        ["diff: missing operand after \x27" ++ String.intercalate " " []
          ++ "\x27"]) :=
  C6_operand_error ⟨0, 0, false, false, false, false, false, false, false⟩ []
    (fun _ => []) (by decide)

/-- C7 counterexample: at `["a","b","c"]` vs `["a","x","c"]` with width 3,
`diff.go`'s unified output contains no space-prefixed context line at all
(the claim requires the unchanged neighbours as context), and `command.go`'s
unified output contains no `@@` hunk marker line. -/
theorem C7_counterexample :
    diff.generateUnifiedDiff ⟨0, 3, true, false, false, false, false, false, false⟩
        ["a", "b", "c"] ["a", "x", "c"] "A.txt" "B.txt" =
      ["--- A.txt", "+++ B.txt", "@@ -2,1 +2,1 @@", "-b", "+x"] ∧
    (∀ l ∈ (["--- A.txt", "+++ B.txt", "@@ -2,1 +2,1 @@", "-b", "+x"] : List String),
      l.data.head? ≠ some ' ') ∧
    command.outputUnifiedDiff "A.txt" "B.txt" ["a", "b", "c"] ["a", "x", "c"] 3 =
      ["--- A.txt", "+++ B.txt", " a", "-b", "+x", " c"] ∧
    (∀ l ∈ (["--- A.txt", "+++ B.txt", " a", "-b", "+x", " c"] : List String),
      l.data.take 2 ≠ ['@', '@']) :=
  ⟨by decide, by decide, by decide, by decide⟩

/-- C7 (amended): both unified renderers start with the `---`/`+++` header
and ignore the configured context width entirely.  In `diff.go` every body
line is a `@@ -` hunk marker, a `-` deletion or a `+` insertion (equal
lines produce no context output; each differing pair is its own one-line
hunk; a remaining tail is one pure hunk; no merging).  In `command.go` the
body lists every position of both files as a space-prefixed, `-` or `+`
line with no `@@` markers at all. -/
theorem C7_unified_format :
    (∀ (flags : DiffFlags) (l1 l2 : List String) (f1 f2 : String),
      diff.generateUnifiedDiff flags l1 l2 f1 f2 =
        ("--- " ++ f1) :: ("+++ " ++ f2) :: diff.unifiedCore l1 l2 0 0) ∧
    (∀ (flags flagsB : DiffFlags) (l1 l2 : List String) (f1 f2 : String),
      diff.generateUnifiedDiff flags l1 l2 f1 f2 =
        diff.generateUnifiedDiff flagsB l1 l2 f1 f2) ∧
    (∀ (l1 l2 : List String) (i j : Nat) (l : String),
      l ∈ diff.unifiedCore l1 l2 i j →
      (∃ s, l = "@@ -" ++ s) ∨ (∃ s, l = "-" ++ s) ∨ (∃ s, l = "+" ++ s)) ∧
    (∀ (f1 f2 : String) (l1 l2 : List String) (c cB : Int),
      command.outputUnifiedDiff f1 f2 l1 l2 c =
        ("--- " ++ f1) :: ("+++ " ++ f2) :: command.outputUnifiedCore l1 l2 ∧
      command.outputUnifiedDiff f1 f2 l1 l2 c =
        command.outputUnifiedDiff f1 f2 l1 l2 cB) ∧
    (∀ (l1 l2 : List String) (l : String), l ∈ command.outputUnifiedCore l1 l2 →
      (∃ s, l = " " ++ s) ∨ (∃ s, l = "-" ++ s) ∨ (∃ s, l = "+" ++ s)) :=
  ⟨fun _ _ _ _ _ => rfl, fun _ _ _ _ _ _ => rfl, unifiedCore_line_forms,
    fun _ _ _ _ _ _ => ⟨rfl, rfl⟩, outputUnifiedCore_line_forms⟩

/-- C7 witness: the body-line shape applied to a concrete output line. -/
theorem C7_witness :
    (∃ s, ("-a" : String) = "@@ -" ++ s) ∨ (∃ s, ("-a" : String) = "-" ++ s) ∨
      (∃ s, ("-a" : String) = "+" ++ s) :=
  C7_unified_format.2.2.1 ["a"] ["b"] 0 0 "-a" (by decide)

/-- C8: when Unified (resp. ContextDiff) is requested with no explicit
width, both constructors default UnifiedContext (resp. ContextLines)
to 3. -/
theorem C8_default_width :
    ∀ flags : DiffFlags,
      (flags.unified = true → flags.unifiedContext = 0 →
        (diff.Diff flags).unifiedContext = 3 ∧
        (command.Diff flags).unifiedContext = 3) ∧
      (flags.contextDiff = true → flags.contextLines = 0 →
        (diff.Diff flags).contextLines = 3 ∧
        (command.Diff flags).contextLines = 3) := by
  intro flags
  constructor
  · intro h1 h2
    constructor <;> simp [diff.Diff, command.Diff, h1, h2]
  · intro h1 h2
    constructor <;> simp [diff.Diff, command.Diff, h1, h2]

/-- C8 witness: defaults applied at a concrete flag record. -/
theorem C8_witness :
    (diff.Diff ⟨0, 0, true, true, false, false, false, false, false⟩).unifiedContext = 3 ∧
    (command.Diff ⟨0, 0, true, true, false, false, false, false, false⟩).unifiedContext = 3 ∧
    (diff.Diff ⟨0, 0, true, true, false, false, false, false, false⟩).contextLines = 3 ∧
    (command.Diff ⟨0, 0, true, true, false, false, false, false, false⟩).contextLines = 3 := by
  have h := C8_default_width ⟨0, 0, true, true, false, false, false, false, false⟩
  have h1 := h.1 rfl rfl
  have h2 := h.2 rfl rfl
  exact ⟨h1.1, h1.2, h2.1, h2.2⟩

/-- C9: in `diff.go`, for differing non-brief inputs the renderer receives
the normalized line sequences, so the rendered text is the normalized one;
concretely, with ignoreCase set, `["X"]` vs `["Y"]` is displayed
lower-cased as `< x` / `> y`. -/
theorem C9_normalized_rendering :
    (∀ (flags : DiffFlags) (f1 f2 : String) (readFile : String → List String),
      flags.brief = false →
      diff.linesEqual (diff.normalizeForCompare flags (readFile f1))
        (diff.normalizeForCompare flags (readFile f2)) = false →
      diff.Execute flags [f1, f2] readFile =
        ⟨diff.generateDiff flags (diff.normalizeForCompare flags (readFile f1))
          (diff.normalizeForCompare flags (readFile f2)) f1 f2, [], none⟩) ∧
    diff.Execute ⟨0, 0, false, false, false, true, false, false, false⟩ ["A", "B"]
        (fun s => if s = "A" then ["X"] else ["Y"]) =
      ⟨["1c1", "< x", "---", "> y"], [], none⟩ := by
  refine ⟨fun flags f1 f2 readFile hb hne => ?_, by decide⟩
  simp [diff.Execute, hne, hb]

/-- C9 witness: the normalized-rendering equation at a concrete input. -/
theorem C9_witness :
    diff.Execute ⟨0, 0, false, false, false, true, false, false, false⟩ ["A", "B"]
        (fun s => if s = "A" then ["X"] else ["Y"]) =
      ⟨diff.generateDiff ⟨0, 0, false, false, false, true, false, false, false⟩
        (diff.normalizeForCompare ⟨0, 0, false, false, false, true, false, false, false⟩
          ((fun s => if s = "A" then ["X"] else ["Y"]) "A"))
        (diff.normalizeForCompare ⟨0, 0, false, false, false, true, false, false, false⟩
          ((fun s => if s = "A" then ["X"] else ["Y"]) "B")) "A" "B", [], none⟩ :=
  C9_normalized_rendering.1 ⟨0, 0, false, false, false, true, false, false, false⟩
    "A" "B" (fun s => if s = "A" then ["X"] else ["Y"]) rfl (by decide)

/-- C10: in `diff.go`'s `generateDiff`, a positive UnifiedContext selects
the unified renderer even when the Unified flag is false, and the same
holds end-to-end through `Execute` for differing, non-brief inputs. -/
theorem C10_unified_selection :
    (∀ (flags : DiffFlags) (l1 l2 : List String) (f1 f2 : String),
      flags.unified = false → 0 < flags.unifiedContext →
      diff.generateDiff flags l1 l2 f1 f2 =
        diff.generateUnifiedDiff flags l1 l2 f1 f2) ∧
    (∀ (flags : DiffFlags) (f1 f2 : String) (readFile : String → List String),
      flags.unified = false → 0 < flags.unifiedContext → flags.brief = false →
      diff.linesEqual (diff.normalizeForCompare flags (readFile f1))
        (diff.normalizeForCompare flags (readFile f2)) = false →
      diff.Execute flags [f1, f2] readFile =
        ⟨diff.generateUnifiedDiff flags (diff.normalizeForCompare flags (readFile f1))
          (diff.normalizeForCompare flags (readFile f2)) f1 f2, [], none⟩) := by
  constructor
  · intro flags l1 l2 f1 f2 hu hpos
    simp [diff.generateDiff, hu, hpos]
  · intro flags f1 f2 readFile hu hpos hb hne
    simp [diff.Execute, hne, hb, diff.generateDiff, hu, hpos]

/-- C10 witness: renderer selection at a concrete flag record with
Unified off and UnifiedContext 2. -/
theorem C10_witness :
    diff.generateDiff ⟨0, 2, false, false, false, false, false, false, false⟩
        ["a"] ["b"] "A" "B" =
      diff.generateUnifiedDiff ⟨0, 2, false, false, false, false, false, false, false⟩
        ["a"] ["b"] "A" "B" :=
  C10_unified_selection.1 ⟨0, 2, false, false, false, false, false, false, false⟩
    ["a"] ["b"] "A" "B" rfl (by decide)
